import Mathlib

/-!
# Verification development for the sup-linux face-authentication service

Shallow embedding of the authentication-service core of the `sup-linux`
repository, together with theorems settling the specification claims.

Modelling conventions:
* `f32` values that are only moved, compared, summed and divided (embedding
  components, quality scores) are modelled by exact rationals `ℚ` in the
  store/enrollment sections, keeping every definition executable; `f32`
  values flowing through `sqrt` (cosine similarity) are modelled by reals
  `ℝ` with `Real.sqrt`.
* `Instant`s are modelled as rational time stamps measured from the start
  of the request, so `start_time.elapsed()` is the current time stamp.
* Filesystem effects of `UserStore::save_user_data` are modelled as a trace
  of filesystem operations.
* SHA-256 (the external `sha2` crate) and the little-endian `f32` byte
  encoding are collaborators, modelled as abstract function parameters.
-/

namespace SupLinux

/-! ## Data model: `UserData` (src/storage/user_store.rs) -/

/-- `UserData` record from `src/storage/user_store.rs` (scalar type `α`
models `f32`).  The `version`/`username` fields are carried verbatim. -/
structure UserData (α : Type) where
  version : Nat
  username : String
  embeddings : List (List α)
  averaged_embedding : Option (List α)
  embedding_qualities : Option (List α)
deriving Repr, DecidableEq

/-! ## Store operations (src/storage/user_store.rs) -/

/-- `UserStore::average_embeddings`: component-wise arithmetic mean of the
embeddings (empty list yields the empty embedding).  The Rust code
accumulates into a vector sized from the first embedding; `zipWith`
matches it whenever all embeddings share the first one's length, which is
the record invariant. -/
def average_embeddings (embeddings : List (List ℚ)) : List ℚ :=
  match embeddings with
  | [] => []
  | e0 :: _ =>
    let zero := List.replicate e0.length (0 : ℚ)
    let summed := embeddings.foldl (fun acc e => acc.zipWith (· + ·) e) zero
    summed.map (· / (embeddings.length : ℚ))

/-- Stable insertion of an indexed quality into an ascending list, matching
the stable ascending `sort_by` used over `(index, quality)` pairs. -/
def sortInsert (p : Nat × ℚ) : List (Nat × ℚ) → List (Nat × ℚ)
  | [] => [p]
  | q :: rest => if p.2 ≤ q.2 then p :: q :: rest else q :: sortInsert p rest

/-- Stable ascending sort by quality of `(index, quality)` pairs, modelling
`quality_indices.sort_by(|a, b| a.1.partial_cmp(&b.1).unwrap())` (the
comparison is total on the exact rationals that model the scores). -/
def sortByQuality : List (Nat × ℚ) → List (Nat × ℚ)
  | [] => []
  | p :: rest => sortInsert p (sortByQuality rest)

/-- Inner scan of `UserStore::merge_user_data`: first index in the
(pre-sorted, never refreshed) `quality_indices` list whose recorded quality
is below the new sample's quality, subject to the
`replaced_count < new_embeddings.len()` guard. -/
def findReplaceSlot (quality_indices : List (Nat × ℚ)) (new_qual : ℚ)
    (replaced_count new_len : Nat) : Option Nat :=
  match quality_indices with
  | [] => none
  | (idx, old_qual) :: rest =>
    if old_qual < new_qual ∧ replaced_count < new_len then some idx
    else findReplaceSlot rest new_qual replaced_count new_len

/-- One iteration of the `for (new_emb, new_qual) in ...zip...` loop of
`UserStore::merge_user_data`: replace at the found slot or append. -/
def mergeSample (quality_indices : List (Nat × ℚ)) (new_len : Nat)
    (acc : List (List ℚ) × List ℚ × Nat) (p : List ℚ × ℚ) :
    List (List ℚ) × List ℚ × Nat :=
  match findReplaceSlot quality_indices p.2 acc.2.2 new_len with
  | some idx => (acc.1.set idx p.1, acc.2.1.set idx p.2, acc.2.2 + 1)
  | none => (acc.1 ++ [p.1], acc.2.1 ++ [p.2], acc.2.2)

/-- `UserStore::merge_user_data` (src/storage/user_store.rs:119-171).
Returns `((added, replaced), merged_record)`; the Rust function mutates
`existing` in place and returns the counts. -/
def merge_user_data (existing : UserData ℚ) (new_embeddings : List (List ℚ))
    (new_qualities : List ℚ) (replace_weak : Bool) :
    (Nat × Nat) × UserData ℚ :=
  let initial_count := existing.embeddings.length
  let merged :=
    if replace_weak && existing.embedding_qualities.isSome then
      let qualities := existing.embedding_qualities.getD []
      let quality_indices := sortByQuality qualities.enum
      let res := (new_embeddings.zip new_qualities).foldl
        (mergeSample quality_indices new_embeddings.length)
        (existing.embeddings, qualities, 0)
      ({ existing with embeddings := res.1, embedding_qualities := some res.2.1 },
       res.2.2)
    else
      let quals :=
        match existing.embedding_qualities with
        | some qs => some (qs ++ new_qualities)
        | none => some new_qualities
      ({ existing with embeddings := existing.embeddings ++ new_embeddings,
                       embedding_qualities := quals }, 0)
  let record := { merged.1 with
    averaged_embedding := some (average_embeddings merged.1.embeddings) }
  ((record.embeddings.length - initial_count, merged.2), record)

/-! ## Filesystem trace model for `UserStore::save_user_data` -/

/-- Filesystem operations a save routine may perform; paths are lists of
components. -/
inductive FsOp where
  | write (path : List String) (bytes : List Nat)
  | rename (src : List String) (dst : List String)
  | chmod (path : List String) (mode : Nat)
deriving Repr, DecidableEq

/-- `UserStore::save_user_data` (src/storage/user_store.rs:85-91): a single
`fs::write` of the serialized record to `<data_dir>/<username>.bincode`.
`encode` models `bincode::serialize`. -/
def save_user_data (encode : UserData ℚ → List Nat) (data_dir : List String)
    (user_data : UserData ℚ) : List FsOp :=
  [FsOp.write (data_dir ++ [user_data.username ++ ".bincode"]) (encode user_data)]

/-- The atomic-save discipline asserted by the claim: the serialized bytes
go to a temporary file which is then renamed over the target. -/
def uses_atomic_rename (ops : List FsOp) (target : List String) : Prop :=
  ∃ tmp bytes, FsOp.write tmp bytes ∈ ops ∧ FsOp.rename tmp target ∈ ops

/-- The mode-0600 part of the claim: some chmod to `0o600` appears in the
trace. -/
def sets_mode_0600 (ops : List FsOp) : Prop :=
  ∃ p, FsOp.chmod p 384 ∈ ops

/-! ## Protocol response types (src/service/protocol.rs)

The `timestamp : SystemTime` field of `AuthResponse` is wall-clock I/O and
is omitted; `message` strings are carried with the counts they interpolate
left out where the claims do not mention them. -/

/-- `EnrollResponse` from src/service/protocol.rs. -/
structure EnrollResponse where
  success : Bool
  message : String
deriving Repr, DecidableEq

/-- `EnhanceResponse` from src/service/protocol.rs. -/
structure EnhanceResponse where
  success : Bool
  message : String
  embeddings_before : Nat
  embeddings_after : Nat
  replaced_count : Nat
deriving Repr, DecidableEq

/-- `AuthResponse` from src/service/protocol.rs (minus `timestamp`);
`signature` is a byte sequence. -/
structure AuthResponse where
  success : Bool
  message : String
  attempts : Nat
  signature : List Nat
deriving Repr, DecidableEq

/-! ## Peer authorization gates (src/bin/service.rs)

`get_username_from_uid` wraps `getpwuid_r`; its outcome for the peer uid is
a collaborator input, modelled by `UidResolution`.  The four enroll/enhance
handlers share an identical authorization prologue; the two functions below
are translated from `handle_enroll_request` (lines 917-937) and
`handle_enhance_request` (lines 1693-1718).  `some r` models the handler
returning the denial response `r` before any store, camera or engine work;
`none` models falling through into the engine. -/

/-- Outcome of resolving the peer uid to a username via `getpwuid_r`. -/
inductive UidResolution where
  | resolved (name : String)
  | unknownUid
deriving Repr, DecidableEq

/-- Authorization prologue of the enroll handlers. -/
def enroll_authorization (uid : Nat) (res : UidResolution)
    (req_username : String) : Option EnrollResponse :=
  if uid ≠ 0 then
    match res with
    | .resolved req_user =>
      if req_user ≠ req_username then
        some ⟨false, "Permission denied: You can only enroll yourself"⟩
      else none
    | .unknownUid => some ⟨false, "Failed to verify user identity"⟩
  else none

/-- Authorization prologue of the enhance handlers. -/
def enhance_authorization (uid : Nat) (res : UidResolution)
    (req_username : String) : Option EnhanceResponse :=
  if uid ≠ 0 then
    match res with
    | .resolved req_user =>
      if req_user ≠ req_username then
        some ⟨false, "Permission denied: You can only enhance your own enrollment", 0, 0, 0⟩
      else none
    | .unknownUid => some ⟨false, "Failed to verify user identity", 0, 0, 0⟩
  else none

/-! ## Enrollment / enhancement completion logic (src/bin/service.rs)

The capture loops themselves only interact with the camera, the detector
and the preview stream; neither loop writes the user record.  What decides
the claims is the post-loop logic, embedded below as pure functions of the
loop's outcome (`captured` counter and collected embedding/quality
buffers).  Each function returns the terminal response paired with the
record handed to `save_user_data` (`none` when nothing is written); the
error path of a failing save is elided. -/

/-- Post-loop logic of the streaming enroll handler
(`handle_enroll_request_streaming`, src/bin/service.rs:824-905):
success requires `captured >= total_captures`, and on failure it returns
before building or saving any record. -/
def enroll_finish_streaming (username : String) (captured total_captures : Nat)
    (embeddings : List (List ℚ)) (quality_scores : List ℚ) :
    EnrollResponse × Option (UserData ℚ) :=
  if captured ≥ total_captures then
    let averaged :=
      if embeddings.isEmpty then none else some (average_embeddings embeddings)
    let user_data : UserData ℚ :=
      ⟨1, username, embeddings, averaged, some quality_scores⟩
    (⟨true, "enrolled successfully"⟩, some user_data)
  else
    (⟨false, "Enrollment failed: too few captures completed"⟩, none)

/-- Post-loop logic of the non-streaming enroll handler
(`handle_enroll_request`, src/bin/service.rs:1075-1129): it only checks
`embeddings.is_empty()`, then builds and saves the record and reports
success — even when the deadline expired with `captured < total_captures`. -/
def enroll_finish (username : String) (captured total_captures : Nat)
    (embeddings : List (List ℚ)) (quality_scores : List ℚ) :
    EnrollResponse × Option (UserData ℚ) :=
  if embeddings.isEmpty then
    (⟨false, "Failed to capture any valid face images"⟩, none)
  else
    let averaged := some (average_embeddings embeddings)
    let user_data : UserData ℚ :=
      ⟨1, username, embeddings, averaged, some quality_scores⟩
    (⟨true, "Successfully enrolled user"⟩, some user_data)

/-- Post-loop logic of the streaming enhance handler
(`handle_enhance_request_streaming`, src/bin/service.rs:1600-1681):
merging always happens when any capture succeeded, but the merged record is
saved only when `added_count > 0`. -/
def enhance_finish_streaming (user_data : UserData ℚ)
    (new_embeddings : List (List ℚ)) (new_quality_scores : List ℚ)
    (replace_weak : Bool) : EnhanceResponse × Option (UserData ℚ) :=
  let embeddings_before := user_data.embeddings.length
  let captured := new_embeddings.length
  let merged :=
    if ¬ new_embeddings.isEmpty then
      merge_user_data user_data new_embeddings new_quality_scores replace_weak
    else ((0, 0), user_data)
  let added_count := merged.1.1
  let replaced_count := merged.1.2
  let saved := if added_count > 0 then some merged.2 else none
  let embeddings_after := merged.2.embeddings.length
  if captured > 0 then
    (⟨true, "Successfully enhanced enrollment",
      embeddings_before, embeddings_after, replaced_count⟩, saved)
  else
    (⟨false, "Failed to capture any valid face images for enhancement",
      embeddings_before, embeddings_before, 0⟩, saved)

/-- Post-loop logic of the non-streaming enhance handler
(`handle_enhance_request`, src/bin/service.rs:1894-1946): with zero
captures nothing is merged or saved; otherwise the merged record is always
saved. -/
def enhance_finish (user_data : UserData ℚ)
    (new_embeddings : List (List ℚ)) (new_quality_scores : List ℚ)
    (replace_weak : Bool) : EnhanceResponse × Option (UserData ℚ) :=
  let embeddings_before := user_data.embeddings.length
  if new_embeddings.isEmpty then
    (⟨false, "Failed to capture any valid face images for enhancement",
      embeddings_before, embeddings_before, 0⟩, none)
  else
    let merged := merge_user_data user_data new_embeddings new_quality_scores replace_weak
    (⟨true, "Successfully enhanced enrollment",
      embeddings_before, merged.2.embeddings.length, merged.1.2⟩, some merged.2)

/-! ## Cosine similarity and best-similarity (src/recognizer.rs, src/bin/service.rs)

`f32` arithmetic is modelled over `ℝ` (`sqrt` is `Real.sqrt`); real-number
branching is classical, so these definitions are noncomputable. -/

open scoped Classical in
/-- `cosine_similarity` (src/recognizer.rs:145-155): dot product over the
norms, `0` when either norm is zero. -/
noncomputable def cosine_similarity (a b : List ℝ) : ℝ :=
  let dot := ((a.zip b).map (fun p => p.1 * p.2)).sum
  let norm_a := Real.sqrt ((a.map (fun x => x * x)).sum)
  let norm_b := Real.sqrt ((b.map (fun x => x * x)).sum)
  if norm_a = 0 ∨ norm_b = 0 then 0 else dot / (norm_a * norm_b)

/-- `average_embeddings_buffer` (src/bin/service.rs:1317-1337): component-wise
mean of the fusion buffer (same accumulation pattern as
`average_embeddings`). -/
noncomputable def average_embeddings_buffer (buffer : List (List ℝ)) : List ℝ :=
  match buffer with
  | [] => []
  | e0 :: _ =>
    let zero := List.replicate e0.length (0 : ℝ)
    let summed := buffer.foldl (fun acc e => acc.zipWith (· + ·) e) zero
    summed.map (· / (buffer.length : ℝ))

open scoped Classical in
/-- `calculate_best_similarity` (src/bin/service.rs:1279-1315): fold of
`f32::max` starting from `0.0` over the stored embeddings, the stored
averaged embedding, and (when fusion applies) the same probes against the
buffer mean. -/
noncomputable def calculate_best_similarity (embedding : List ℝ)
    (embedding_buffer : List (List ℝ)) (user_data : UserData ℝ)
    (use_fusion : Bool) : ℝ :=
  let b1 := user_data.embeddings.foldl
    (fun acc stored => max acc (cosine_similarity embedding stored)) 0
  let b2 :=
    match user_data.averaged_embedding with
    | some avg_stored => max b1 (cosine_similarity embedding avg_stored)
    | none => b1
  if use_fusion ∧ embedding_buffer.length ≥ 2 then
    let fused := average_embeddings_buffer embedding_buffer
    let b3 := user_data.embeddings.foldl
      (fun acc stored => max acc (cosine_similarity fused stored)) b2
    match user_data.averaged_embedding with
    | some avg_stored => max b3 (cosine_similarity fused avg_stored)
    | none => b3
  else b2

/-- The candidate similarities named by the specification: (a) current
embedding against each stored embedding, (b) against the stored averaged
embedding when present, (c) when fusion is enabled and the buffer holds at
least two embeddings, the buffer mean against each stored embedding and the
averaged embedding.  Stated from the spec for comparison with
`calculate_best_similarity`. -/
noncomputable def similarity_candidates (embedding : List ℝ)
    (embedding_buffer : List (List ℝ)) (user_data : UserData ℝ)
    (use_fusion : Bool) : List ℝ :=
  user_data.embeddings.map (cosine_similarity embedding) ++
  (match user_data.averaged_embedding with
   | some avg_stored => [cosine_similarity embedding avg_stored]
   | none => []) ++
  (if use_fusion ∧ embedding_buffer.length ≥ 2 then
    let fused := average_embeddings_buffer embedding_buffer
    user_data.embeddings.map (cosine_similarity fused) ++
    (match user_data.averaged_embedding with
     | some avg_stored => [cosine_similarity fused avg_stored]
     | none => [])
   else [])

/-- Maximum of a list of reals, `0` for the empty list: the "maximum over
(a), (b), (c)" of the specification (the candidate list is nonempty in
every case the claim quantifies over). -/
noncomputable def listMax : List ℝ → ℝ
  | [] => 0
  | x :: xs => xs.foldl max x

/-! ## Embedding consistency (src/quality.rs)

`src/quality.rs` carries its own private `cosine_similarity` that first
compares lengths; it is embedded separately inside namespace `Quality`. -/

namespace Quality

open scoped Classical in
/-- `cosine_similarity` (src/quality.rs:208-222): returns `0` on a length
mismatch, else dot over norms with the zero-norm guard. -/
noncomputable def cosine_similarity (a b : List ℝ) : ℝ :=
  if a.length ≠ b.length then 0
  else
    let dot := ((a.zip b).map (fun p => p.1 * p.2)).sum
    let norm_a := Real.sqrt ((a.map (fun x => x * x)).sum)
    let norm_b := Real.sqrt ((b.map (fun x => x * x)).sum)
    if norm_a = 0 ∨ norm_b = 0 then 0 else dot / (norm_a * norm_b)

/-- The `for i / for j in i+1..` pairwise-similarity collection of
`calculate_embedding_consistency`. -/
noncomputable def pairwise_similarities : List (List ℝ) → List ℝ
  | [] => []
  | e :: rest => rest.map (cosine_similarity e) ++ pairwise_similarities rest

open scoped Classical in
/-- `calculate_embedding_consistency` (src/quality.rs:115-161). -/
noncomputable def calculate_embedding_consistency (embeddings : List (List ℝ)) : ℝ :=
  if embeddings.length < 2 then 0.8
  else
    let similarities := pairwise_similarities embeddings
    if similarities.isEmpty then 0.8
    else
      let avg_similarity := similarities.sum / (similarities.length : ℝ)
      let variance := ((similarities.map (fun s => (s - avg_similarity) ^ 2)).sum) /
        (similarities.length : ℝ)
      let similarity_score := 1 - |avg_similarity - 0.82| * 2
      let variance_score :=
        if variance < 0.001 then (0.7 : ℝ)
        else if variance > 0.02 then 0.7
        else 1 - |variance - 0.005| * 10
      min (max (similarity_score * 0.7 + variance_score * 0.3) 0) 1

open scoped Classical in
/-- The consistency score as worded by the specification: with fewer than
two embeddings `0.8`; otherwise `clip(0.7·(1 − 2·|m − 0.82|) + 0.3·f(v), 0, 1)`
with `m` the mean and `v` the variance of all pairwise cosine similarities,
and `f(v) = 0.7` when `v < 0.001` or `v > 0.02`, else `1 − 10·|v − 0.005|`. -/
noncomputable def spec_consistency (embeddings : List (List ℝ)) : ℝ :=
  if embeddings.length < 2 then 0.8
  else
    let sims := pairwise_similarities embeddings
    let m := sims.sum / (sims.length : ℝ)
    let v := ((sims.map (fun s => (s - m) ^ 2)).sum) / (sims.length : ℝ)
    let f := if v < 0.001 ∨ v > 0.02 then (0.7 : ℝ) else 1 - 10 * |v - 0.005|
    min (max (0.7 * (1 - 2 * |m - 0.82|) + 0.3 * f) 0) 1

end Quality

/-! ## Authentication loop (src/bin/service.rs:1131-1277)

The loop in `perform_authentication` is embedded as a transition function
over `AuthenticationState` driven by a list of per-iteration inputs.  Each
`AuthInput` carries the `Instant` at the top of the iteration (as elapsed
time from the start, a rational) and the combined outcome of
`capture_frame`/`detect`/`get_embedding` for that iteration.  Exhausting
the input list, like a time stamp past `timeout_seconds`, ends the loop on
the timeout response.  SHA-256 (`hash`) and `f32::to_le_bytes` (`leBytes`)
are abstract collaborator parameters.  The `u32` decrement of
`successful_matches` is modelled by an explicit underflow case (`none` /
`StepResult.underflow`), matching the panic an underflowing `u32`
subtraction raises. -/

/-- The configuration snapshot consumed by the loop (fields of
`config.auth`, src/config.rs). -/
structure AuthConfig where
  similarity_threshold : ℝ
  timeout_seconds : ℚ
  k_required_matches : Nat
  n_total_attempts : Nat
  embedding_buffer_size : Nat
  use_embedding_fusion : Bool
  lost_face_timeout : ℚ

/-- Combined outcome of one iteration's detector/recognizer calls:
`faces emb` = nonempty detection whose first box yielded `emb`;
`embedFail` = nonempty detection but `get_embedding` failed (the loop
`continue`s after updating the face-tracking fields); `noFace` = empty
detection; `detectError` = `detect` returned an error. -/
inductive DetectOutcome where
  | faces (embedding : List ℝ)
  | embedFail
  | noFace
  | detectError

/-- One loop iteration's input: the elapsed-time stamp at its top and the
capture outcome (`none` = `capture_frame` failed). -/
structure AuthInput where
  now : ℚ
  capture : Option DetectOutcome

/-- `AuthenticationState` (src/bin/service.rs:51-57).  The window deque is
a list with its front at the head; `last_face_time` is an elapsed-time
stamp. -/
structure AuthenticationState where
  auth_attempts : List Bool
  successful_matches : Nat
  embedding_buffer : List (List ℝ)
  last_face_time : ℚ
  face_detected_once : Bool

/-- `AuthenticationState::new` at time stamp `t` (the Rust constructor
records `Instant::now()`; the buffer-capacity argument has no observable
effect in the list model). -/
def AuthenticationState.fresh (t : ℚ) : AuthenticationState :=
  ⟨[], 0, [], t, false⟩

/-- `generate_signature` (src/bin/service.rs:1339-1351): hash of each
component's little-endian `f32` bytes followed by the challenge bytes
(incremental `Sha256::update` equals hashing the concatenation). -/
def generate_signature (hash : List Nat → List Nat) (leBytes : ℝ → List Nat)
    (embedding : List ℝ) (challenge : List Nat) : List Nat :=
  hash ((embedding.map leBytes).flatten ++ challenge)

/-- The `while auth_attempts.len() > n { if pop_front() == Some(true) {
successful_matches -= 1 } }` maintenance (src/bin/service.rs:1233-1237);
`none` models the `u32` underflow of the decrement. -/
def trim_window (n : Nat) : List Bool → Nat → Option (List Bool × Nat)
  | [], c => some ([], c)
  | b :: rest, c =>
    if (b :: rest).length > n then
      if b then
        match c with
        | 0 => none
        | Nat.succ c' => trim_window n rest c'
      else trim_window n rest c
    else some (b :: rest, c)

/-- Timeout response (src/bin/service.rs:1269-1276). -/
def timeout_response (attempts : Nat) : AuthResponse :=
  ⟨false, "Authentication timeout", attempts, []⟩

/-- Result of one loop iteration: continue with a new state, return a
terminal response, or abort on the modelled counter underflow. -/
inductive StepResult where
  | next (s : AuthenticationState)
  | done (r : AuthResponse)
  | underflow

open scoped Classical in
/-- The lost-face check at the top of each iteration
(src/bin/service.rs:1176-1180): when a face has been seen and the elapsed
time since the last sighting exceeds `lost_face_timeout`, the whole
`AuthenticationState` is replaced by a fresh one. -/
noncomputable def reset_check (cfg : AuthConfig) (now : ℚ)
    (s : AuthenticationState) : AuthenticationState :=
  if s.face_detected_once ∧ cfg.lost_face_timeout < now - s.last_face_time
  then AuthenticationState.fresh now else s

/-- The `face_detected_once = true; last_face_time = Instant::now()` update
performed as soon as the detection list is nonempty
(src/bin/service.rs:1194-1198). -/
def face_seen (s : AuthenticationState) (now : ℚ) : AuthenticationState :=
  { s with face_detected_once := true, last_face_time := now }

/-- The fusion-buffer update (src/bin/service.rs:1211-1215): push the new
embedding to the back; if the buffer then exceeds
`embedding_buffer_size`, pop one element from the front. -/
def buffer_push (cfg : AuthConfig) (buf : List (List ℝ)) (embedding : List ℝ) :
    List (List ℝ) :=
  if (buf ++ [embedding]).length > cfg.embedding_buffer_size
  then (buf ++ [embedding]).tail else buf ++ [embedding]

/-- The K-of-N window update (src/bin/service.rs:1227-1237): append the
hit, bump the counter on a hit, then run the `while`-loop maintenance
`trim_window`. -/
def window_update (cfg : AuthConfig) (s : AuthenticationState) (hit : Bool) :
    Option (List Bool × Nat) :=
  trim_window cfg.n_total_attempts (s.auth_attempts ++ [hit])
    (if hit then s.successful_matches + 1 else s.successful_matches)

open scoped Classical in
/-- The embedding-processing part of a loop iteration
(src/bin/service.rs:1211-1256): fusion-buffer push, best-similarity,
`hit = similarity > threshold`, K-of-N window update, and the
`successful_matches >= k` success exit with the signature over the current
embedding. -/
noncomputable def face_step (cfg : AuthConfig) (user_data : UserData ℝ)
    (challenge : List Nat) (hash : List Nat → List Nat)
    (leBytes : ℝ → List Nat) (s : AuthenticationState) (attempts : Nat)
    (embedding : List ℝ) : StepResult :=
  match window_update cfg s
    (decide (cfg.similarity_threshold <
      calculate_best_similarity embedding
        (buffer_push cfg s.embedding_buffer embedding) user_data
        cfg.use_embedding_fusion)) with
  | none => .underflow
  | some (w, c) =>
    if cfg.k_required_matches ≤ c then
      .done ⟨true, "Authenticated", attempts,
        generate_signature hash leBytes embedding challenge⟩
    else
      .next { s with auth_attempts := w, successful_matches := c,
                     embedding_buffer := buffer_push cfg s.embedding_buffer embedding }

/-- Body of the authentication loop (src/bin/service.rs:1172-1266), after
the `total_attempts += 1` increment: lost-face reset check, then the
capture/detect/embed cases. -/
noncomputable def auth_step (cfg : AuthConfig) (user_data : UserData ℝ)
    (challenge : List Nat) (hash : List Nat → List Nat)
    (leBytes : ℝ → List Nat) (s : AuthenticationState) (attempts : Nat)
    (inp : AuthInput) : StepResult :=
  let s := reset_check cfg inp.now s
  match inp.capture with
  | none => .next s
  | some .noFace => .next s
  | some .detectError => .next s
  | some .embedFail => .next (face_seen s inp.now)
  | some (.faces embedding) =>
    face_step cfg user_data challenge hash leBytes (face_seen s inp.now)
      attempts embedding

/-- The authentication loop: per iteration, first the
`start_time.elapsed() < timeout` guard, then `total_attempts += 1` and the
body.  `none` propagates the modelled counter underflow. -/
noncomputable def auth_loop (cfg : AuthConfig) (user_data : UserData ℝ)
    (challenge : List Nat) (hash : List Nat → List Nat)
    (leBytes : ℝ → List Nat) :
    List AuthInput → AuthenticationState → Nat → Option AuthResponse
  | [], _, attempts => some (timeout_response attempts)
  | inp :: rest, s, attempts =>
    if cfg.timeout_seconds ≤ inp.now then some (timeout_response attempts)
    else
      match auth_step cfg user_data challenge hash leBytes s (attempts + 1) inp with
      | .underflow => none
      | .done r => some r
      | .next s' => auth_loop cfg user_data challenge hash leBytes rest s' (attempts + 1)

/-- The sequence of states observed after each completed loop iteration
(same control flow as `auth_loop`). -/
noncomputable def auth_trace (cfg : AuthConfig) (user_data : UserData ℝ)
    (challenge : List Nat) (hash : List Nat → List Nat)
    (leBytes : ℝ → List Nat) :
    List AuthInput → AuthenticationState → Nat → List AuthenticationState
  | [], _, _ => []
  | inp :: rest, s, attempts =>
    if cfg.timeout_seconds ≤ inp.now then []
    else
      match auth_step cfg user_data challenge hash leBytes s (attempts + 1) inp with
      | .underflow => []
      | .done _ => []
      | .next s' => s' :: auth_trace cfg user_data challenge hash leBytes rest s' (attempts + 1)

/-- Partial run of the loop that consumes every given input without
terminating: it applies the same per-iteration control flow as `auth_loop`
(deadline guard, `total_attempts += 1`, `auth_step`) and returns the state
and attempt counter reached after the whole prefix, or `none` when the
loop would have stopped (deadline hit, success, or the modelled underflow)
somewhere inside the prefix.  Used to pin a success response to the exact
iteration that produced it. -/
noncomputable def auth_steps (cfg : AuthConfig) (user_data : UserData ℝ)
    (challenge : List Nat) (hash : List Nat → List Nat)
    (leBytes : ℝ → List Nat) :
    List AuthInput → AuthenticationState → Nat →
      Option (AuthenticationState × Nat)
  | [], s, attempts => some (s, attempts)
  | inp :: rest, s, attempts =>
    if cfg.timeout_seconds ≤ inp.now then none
    else
      match auth_step cfg user_data challenge hash leBytes s (attempts + 1) inp with
      | .next s' => auth_steps cfg user_data challenge hash leBytes rest s' (attempts + 1)
      | _ => none

/-- `perform_authentication` (src/bin/service.rs:1131-1277): user lookup
(`none` = `store.get_user` failed, the "not enrolled" response), then the
loop from the fresh state at time 0. -/
noncomputable def perform_authentication (cfg : AuthConfig)
    (user_lookup : Option (UserData ℝ)) (username : String)
    (challenge : List Nat) (hash : List Nat → List Nat)
    (leBytes : ℝ → List Nat) (inputs : List AuthInput) : Option AuthResponse :=
  match user_lookup with
  | none => some ⟨false, "User " ++ username ++ " not enrolled", 0, []⟩
  | some user_data =>
    auth_loop cfg user_data challenge hash leBytes inputs
      (AuthenticationState.fresh 0) 0

/-- The window-accounting invariant of the claim: the counter equals the
number of `true` entries in the window and the window never exceeds `N`. -/
def WindowInv (cfg : AuthConfig) (s : AuthenticationState) : Prop :=
  s.successful_matches = s.auth_attempts.count true ∧
  s.auth_attempts.length ≤ cfg.n_total_attempts

/-! ## Theorems -/

/-- **C5.** `merge_user_data` evaluated at the specification's enhancement
example (existing qualities `[0.5, 0.9, 0.6]`, incoming `[0.7, 0.55]`,
`replace_weak = true`): the quality index list is sorted once and never
refreshed, so both incoming samples overwrite the *same* weakest slot
(index 0) against its stale recorded quality `0.5`.  The result is
`added = 0, replaced = 2` with final qualities `[0.55, 0.9, 0.6]` — the
quality-`0.7` sample is lost — instead of the claimed `added = 1,
replaced = 1` and final quality multiset `{0.9, 0.7, 0.6, 0.55}`. -/
theorem merge_spec_example_divergence :
    (merge_user_data ⟨1, "alice", [[0], [1], [2]], none, some [1/2, 9/10, 3/5]⟩
      [[10], [11]] [7/10, 11/20] true).1 = (0, 2) ∧
    (merge_user_data ⟨1, "alice", [[0], [1], [2]], none, some [1/2, 9/10, 3/5]⟩
      [[10], [11]] [7/10, 11/20] true).2.embedding_qualities
      = some [11/20, 9/10, 3/5] ∧
    (merge_user_data ⟨1, "alice", [[0], [1], [2]], none, some [1/2, 9/10, 3/5]⟩
      [[10], [11]] [7/10, 11/20] true).2.embeddings = [[11], [1], [2]] := by
  norm_num [merge_user_data, mergeSample, findReplaceSlot, sortByQuality, sortInsert,
    List.foldl, List.enum, List.enumFrom]

/-- **C6.** Divergence of the non-streaming enroll handler on a deadline
expiry with 3 of 5 captures: `handle_enroll_request` only checks
`embeddings.is_empty()`, so it reports `success = true` and writes a
partial record, while the streaming handler (and the claim) require
exactly `total_captures` captures and write nothing. -/
theorem enroll_partial_capture_divergence :
    (enroll_finish "alice" 3 5 [[1], [2], [3]] [1, 1, 1]).1.success = true ∧
    ((enroll_finish "alice" 3 5 [[1], [2], [3]] [1, 1, 1]).2).isSome = true ∧
    (enroll_finish_streaming "alice" 3 5 [[1], [2], [3]] [1, 1, 1]).1.success = false ∧
    (enroll_finish_streaming "alice" 3 5 [[1], [2], [3]] [1, 1, 1]).2 = none := by
  norm_num [enroll_finish, enroll_finish_streaming]

/-- **C7.** Peer authorization: for both enroll and enhance, the handler
falls through to the engine (`= none`) iff the peer uid is 0 or the uid
resolves to exactly the requested username; every denial response carries
`success = false` and one of the two rejection messages, and is returned
before any engine or store work. -/
theorem peer_authorization_iff (uid : Nat) (res : UidResolution)
    (req_username : String) :
    (enroll_authorization uid res req_username = none ↔
      uid = 0 ∨ res = .resolved req_username) ∧
    (∀ r, enroll_authorization uid res req_username = some r →
      r.success = false ∧
      (r.message = "Permission denied: You can only enroll yourself" ∨
       r.message = "Failed to verify user identity")) ∧
    (enhance_authorization uid res req_username = none ↔
      uid = 0 ∨ res = .resolved req_username) ∧
    (∀ r, enhance_authorization uid res req_username = some r →
      r.success = false ∧
      (r.message = "Permission denied: You can only enhance your own enrollment" ∨
       r.message = "Failed to verify user identity")) := by
  by_cases h0 : uid = 0
  · simp [enroll_authorization, enhance_authorization, h0]
  · rcases res with name | _
    · by_cases hn : name = req_username <;>
        simp_all [enroll_authorization, enhance_authorization, h0, hn]
    · simp [enroll_authorization, enhance_authorization, h0]

/-- Witness for C7: uid 1001 resolving to "bob" asking to enroll "alice"
is denied with `success = false`. -/
theorem peer_authorization_iff_witness :
    ∃ r, enroll_authorization 1001 (.resolved "bob") "alice" = some r ∧
      r.success = false := by
  refine ⟨⟨false, "Permission denied: You can only enroll yourself"⟩, ?_, ?_⟩
  · simp [enroll_authorization]
  · exact ((peer_authorization_iff 1001 (.resolved "bob") "alice").2.1 _
      (by simp [enroll_authorization])).1

/-- **C8** (counterexample).  `save_user_data` performs no write-to-temp +
rename and no chmod at all: the atomic-save discipline claimed by the
specification fails on a concrete record. -/
theorem save_user_data_not_atomic :
    ¬ uses_atomic_rename
        (save_user_data (fun _ => [0]) ["data"] ⟨1, "alice", [[1]], none, none⟩)
        ["data", "alice"] ∧
    ¬ sets_mode_0600
        (save_user_data (fun _ => [0]) ["data"] ⟨1, "alice", [[1]], none, none⟩) := by
  constructor
  · rintro ⟨tmp, bytes, -, hr⟩
    simp [save_user_data] at hr
  · rintro ⟨p, hc⟩
    simp [save_user_data] at hc

/-- **C8** (amended).  `save_user_data` emits exactly one filesystem
operation: a direct write of the serialized record to
`<data_dir>/<username>.bincode`; no rename and no permission change occur
anywhere in its trace. -/
theorem save_user_data_single_write (encode : UserData ℚ → List Nat)
    (data_dir : List String) (user_data : UserData ℚ) :
    save_user_data encode data_dir user_data =
      [FsOp.write (data_dir ++ [user_data.username ++ ".bincode"])
        (encode user_data)] ∧
    (∀ op ∈ save_user_data encode data_dir user_data,
      ∀ src dst, op ≠ FsOp.rename src dst) ∧
    (∀ op ∈ save_user_data encode data_dir user_data,
      ∀ p m, op ≠ FsOp.chmod p m) := by
  refine ⟨rfl, ?_, ?_⟩ <;>
    · intro op hop
      simp [save_user_data] at hop
      subst hop
      intro a b
      simp

/-- Witness for the amended C8: the trace of a concrete save is the single
direct write, which is not a rename. -/
theorem save_user_data_single_write_witness :
    save_user_data (fun _ => [7]) ["d"] ⟨1, "u", [[1]], none, none⟩ =
      [FsOp.write ["d", "u.bincode"] [7]] ∧
    FsOp.write ["d", "u.bincode"] [7] ≠ FsOp.rename [] [] := by
  have h := save_user_data_single_write (fun _ => [7]) ["d"] ⟨1, "u", [[1]], none, none⟩
  refine ⟨h.1, h.2.1 _ ?_ [] []⟩
  rw [h.1]
  simp

/-- **C9.** Divergence of the streaming enhance handler when the merge
replaced embeddings but appended none (`added = 0`, `replaced = 1`): the
`if added_count > 0` guard skips `save_user_data`, so the terminal response
reports a successful enhancement with `replaced_count = 1` while the
replaced record is never written; the non-streaming handler saves it. -/
theorem enhance_replaced_not_saved_divergence :
    (enhance_finish_streaming ⟨1, "alice", [[1], [2]], none, some [1/2, 3/5]⟩
      [[5]] [4/5] true).1 =
      ⟨true, "Successfully enhanced enrollment", 2, 2, 1⟩ ∧
    (enhance_finish_streaming ⟨1, "alice", [[1], [2]], none, some [1/2, 3/5]⟩
      [[5]] [4/5] true).2 = none ∧
    ((enhance_finish ⟨1, "alice", [[1], [2]], none, some [1/2, 3/5]⟩
      [[5]] [4/5] true).2).isSome = true := by
  norm_num [enhance_finish_streaming, enhance_finish, merge_user_data, mergeSample,
    findReplaceSlot, sortByQuality, sortInsert, List.foldl, List.enum, List.enumFrom]

/-- The seed of a `max`-fold never exceeds the fold's result. -/
theorem le_foldl_max (l : List ℝ) (b : ℝ) : b ≤ l.foldl max b := by
  induction l generalizing b with
  | nil => exact le_refl b
  | cons x xs ih => exact le_trans (le_max_left b x) (ih (max b x))

/-- **C4** (counterexample).  With a single stored embedding `[-1]`, no
averaged embedding, fusion off, and current embedding `[1]`, the only
candidate similarity is `cosine_similarity [1] [-1] = -1`, yet
`calculate_best_similarity` returns `0` because its `max`-fold starts at
`0.0`: the result is not the maximum over the specification's candidates
when all of them are negative. -/
theorem best_similarity_negative_counterexample :
    calculate_best_similarity [1] [] ⟨1, "u", [[-1]], none, none⟩ false = 0 ∧
    listMax (similarity_candidates [1] [] ⟨1, "u", [[-1]], none, none⟩ false) = -1 ∧
    calculate_best_similarity [1] [] ⟨1, "u", [[-1]], none, none⟩ false ≠
      listMax (similarity_candidates [1] [] ⟨1, "u", [[-1]], none, none⟩ false) := by
  have hcos : cosine_similarity [(1 : ℝ)] [(-1 : ℝ)] = -1 := by
    norm_num [cosine_similarity, Real.sqrt_one]
  have h1 : calculate_best_similarity [1] [] ⟨1, "u", [[-1]], none, none⟩ false = 0 := by
    simp [calculate_best_similarity, hcos, List.foldl]
  have h2 : listMax (similarity_candidates [1] [] ⟨1, "u", [[-1]], none, none⟩ false)
      = -1 := by
    simp [similarity_candidates, listMax, hcos, List.foldl]
  exact ⟨h1, h2, by rw [h1, h2]; norm_num⟩

/-- **C4** (amended).  `calculate_best_similarity` equals the `max`-fold
*seeded with 0* over the specification's candidate similarities — i.e. the
maximum of 0 and the candidates — and is therefore never negative. -/
theorem best_similarity_eq_fold_max (embedding : List ℝ)
    (embedding_buffer : List (List ℝ)) (user_data : UserData ℝ)
    (use_fusion : Bool) :
    calculate_best_similarity embedding embedding_buffer user_data use_fusion =
      (similarity_candidates embedding embedding_buffer user_data use_fusion).foldl
        max 0 ∧
    0 ≤ calculate_best_similarity embedding embedding_buffer user_data use_fusion := by
  have hmap : ∀ (e : List ℝ) (l : List (List ℝ)) (b : ℝ),
      (l.map (cosine_similarity e)).foldl max b =
        l.foldl (fun acc stored => max acc (cosine_similarity e stored)) b :=
    fun e l b => List.foldl_map _ _ _ _
  have key : calculate_best_similarity embedding embedding_buffer user_data use_fusion =
      (similarity_candidates embedding embedding_buffer user_data use_fusion).foldl
        max 0 := by
    unfold calculate_best_similarity similarity_candidates
    cases havg : user_data.averaged_embedding <;>
      split_ifs with hf <;>
      simp [havg, hf, List.foldl_append, hmap, List.foldl]
  refine ⟨key, ?_⟩
  rw [key]
  exact le_foldl_max _ _

/-- With at least two embeddings the pairwise-similarity list is
nonempty. -/
theorem pairwise_similarities_ne_nil {l : List (List ℝ)} (h : 2 ≤ l.length) :
    Quality.pairwise_similarities l ≠ [] := by
  rcases l with _ | ⟨a, _ | ⟨b, rest⟩⟩
  · simp at h
  · simp at h
  · simp [Quality.pairwise_similarities]

/-- The two phrasings of the clipped consistency combination coincide: the
nested variance `if`s of the code equal the disjunctive `f(v)` of the
specification, and the weighted sum commutes. -/
theorem consistency_formula_eq (m v : ℝ) :
    min (max ((1 - |m - 0.82| * 2) * 0.7 +
      (if v < 0.001 then (0.7 : ℝ)
       else if v > 0.02 then 0.7 else 1 - |v - 0.005| * 10) * 0.3) 0) 1 =
    min (max (0.7 * (1 - 2 * |m - 0.82|) +
      0.3 * (if v < 0.001 ∨ v > 0.02 then (0.7 : ℝ)
             else 1 - 10 * |v - 0.005|)) 0) 1 := by
  have hf : (if v < 0.001 then (0.7 : ℝ)
      else if v > 0.02 then 0.7 else 1 - |v - 0.005| * 10)
      = (if v < 0.001 ∨ v > 0.02 then (0.7 : ℝ) else 1 - 10 * |v - 0.005|) := by
    by_cases h1 : v < 0.001
    · simp [h1]
    · by_cases h2 : v > 0.02 <;> simp [h1, h2] <;> ring
  rw [hf]
  congr 1
  congr 1
  ring

/-- **C10.** `calculate_embedding_consistency` returns `0.8` for fewer than
two embeddings and otherwise the clipped combination
`clip(0.7·(1 − 2·|m − 0.82|) + 0.3·f(v), 0, 1)` of the specification
(stated as equality with `spec_consistency`, worded from the spec), and the
result always lies in `[0, 1]`. -/
theorem consistency_matches_spec_and_bounded (embeddings : List (List ℝ)) :
    Quality.calculate_embedding_consistency embeddings =
      Quality.spec_consistency embeddings ∧
    0 ≤ Quality.calculate_embedding_consistency embeddings ∧
    Quality.calculate_embedding_consistency embeddings ≤ 1 := by
  by_cases hlen : embeddings.length < 2
  · unfold Quality.calculate_embedding_consistency Quality.spec_consistency
    rw [if_pos hlen, if_pos hlen]
    norm_num
  · have hne := pairwise_similarities_ne_nil (not_lt.mp hlen)
    have hkey : Quality.calculate_embedding_consistency embeddings =
        Quality.spec_consistency embeddings := by
      unfold Quality.calculate_embedding_consistency Quality.spec_consistency
      rw [if_neg hlen, if_neg hlen,
        if_neg (by simpa [List.isEmpty_iff] using hne)]
      exact consistency_formula_eq _ _
    have hbound : 0 ≤ Quality.calculate_embedding_consistency embeddings ∧
        Quality.calculate_embedding_consistency embeddings ≤ 1 := by
      unfold Quality.calculate_embedding_consistency
      rw [if_neg hlen, if_neg (by simpa [List.isEmpty_iff] using hne)]
      exact ⟨le_min (le_max_right _ _) zero_le_one, min_le_right _ _⟩
    exact ⟨hkey, hbound⟩

/-- `trim_window` started on a counter that matches the window's `true`
count never underflows and returns a window of length at most `n` whose
`true` count is the new counter. -/
theorem trim_window_count (n : Nat) :
    ∀ (w : List Bool) (c : Nat), c = w.count true →
      ∃ w', trim_window n w c = some (w', w'.count true) ∧ w'.length ≤ n := by
  intro w
  induction w with
  | nil =>
    intro c hc
    refine ⟨[], ?_, by simp⟩
    rw [hc]
    simp [trim_window]
  | cons b rest ih =>
    intro c hc
    by_cases hlen : (b :: rest).length > n
    · cases b with
      | false =>
        have hc' : c = rest.count true := by
          simpa using hc
        obtain ⟨w', h1, h2⟩ := ih c hc'
        refine ⟨w', ?_, h2⟩
        simp only [trim_window]
        rw [if_pos hlen]
        simpa using h1
      | true =>
        have hc' : c = rest.count true + 1 := by
          simpa [List.count_cons] using hc
        obtain ⟨w', h1, h2⟩ := ih (rest.count true) rfl
        refine ⟨w', ?_, h2⟩
        simp only [trim_window]
        rw [if_pos hlen, hc']
        simpa using h1
    · refine ⟨b :: rest, ?_, by simpa using Nat.not_lt.mp hlen⟩
      simp only [trim_window]
      rw [if_neg hlen, hc]

/-- The fresh state satisfies the window invariant. -/
theorem windowInv_fresh (cfg : AuthConfig) (t : ℚ) :
    WindowInv cfg (AuthenticationState.fresh t) := by
  constructor <;> simp [AuthenticationState.fresh, WindowInv]

/-- The window update from a state satisfying the counter/count agreement
returns some window of length at most `N` with the counter again equal to
its `true` count. -/
theorem window_update_inv (cfg : AuthConfig) (s : AuthenticationState)
    (hit : Bool) (h : s.successful_matches = s.auth_attempts.count true) :
    ∃ w', window_update cfg s hit = some (w', w'.count true) ∧
      w'.length ≤ cfg.n_total_attempts := by
  apply trim_window_count
  cases hit <;> simp [List.count_append, h]

/-- `face_step` from an invariant state never hits the modelled underflow,
and its continuation state satisfies the invariant. -/
theorem face_step_inv (cfg : AuthConfig) (user_data : UserData ℝ)
    (challenge : List Nat) (hash : List Nat → List Nat)
    (leBytes : ℝ → List Nat) (s : AuthenticationState) (attempts : Nat)
    (embedding : List ℝ) (h : WindowInv cfg s) :
    face_step cfg user_data challenge hash leBytes s attempts embedding ≠
      .underflow ∧
    ∀ s', face_step cfg user_data challenge hash leBytes s attempts embedding =
      .next s' → WindowInv cfg s' := by
  obtain ⟨w', hw', hlen'⟩ := window_update_inv cfg s
    (decide (cfg.similarity_threshold <
      calculate_best_similarity embedding
        (buffer_push cfg s.embedding_buffer embedding) user_data
        cfg.use_embedding_fusion)) h.1
  unfold face_step
  rw [hw']
  constructor
  · split
    · rename_i heq
      simp at heq
    · split <;> simp
  · intro s' hs'
    split at hs'
    · rename_i heq
      simp at heq
    · rename_i w2 c2 heq
      rcases (by simpa using heq : w' = w2 ∧ List.count true w' = c2) with ⟨hw2, hc2⟩
      subst hw2
      subst hc2
      split at hs'
      · exact absurd hs' (by simp)
      · simp only [StepResult.next.injEq] at hs'
        rw [← hs']
        exact ⟨rfl, hlen'⟩

/-- One step of the authentication loop from an invariant state never hits
the modelled `u32` underflow, and every continuation state satisfies the
invariant again. -/
theorem auth_step_inv (cfg : AuthConfig) (user_data : UserData ℝ)
    (challenge : List Nat) (hash : List Nat → List Nat)
    (leBytes : ℝ → List Nat) (s : AuthenticationState) (attempts : Nat)
    (inp : AuthInput) (h : WindowInv cfg s) :
    auth_step cfg user_data challenge hash leBytes s attempts inp ≠ .underflow ∧
    ∀ s', auth_step cfg user_data challenge hash leBytes s attempts inp = .next s' →
      WindowInv cfg s' := by
  have h1 : WindowInv cfg (reset_check cfg inp.now s) := by
    unfold reset_check
    split
    · exact windowInv_fresh cfg inp.now
    · exact h
  rcases inp with ⟨now, capture⟩
  rcases capture with - | d
  · exact ⟨by simp [auth_step], fun s' hs' => by
      simp only [auth_step, StepResult.next.injEq] at hs'
      rw [← hs']
      exact h1⟩
  rcases d with emb | - | - | -
  · have h2 : WindowInv cfg (face_seen (reset_check cfg now s) now) :=
      ⟨h1.1, h1.2⟩
    have hf := face_step_inv cfg user_data challenge hash leBytes
      (face_seen (reset_check cfg now s) now) attempts emb h2
    exact ⟨by simpa [auth_step] using hf.1, fun s' hs' => hf.2 s'
      (by simpa [auth_step] using hs')⟩
  · exact ⟨by simp [auth_step], fun s' hs' => by
      simp only [auth_step, StepResult.next.injEq] at hs'
      rw [← hs']
      exact ⟨h1.1, h1.2⟩⟩
  · exact ⟨by simp [auth_step], fun s' hs' => by
      simp only [auth_step, StepResult.next.injEq] at hs'
      rw [← hs']
      exact h1⟩
  · exact ⟨by simp [auth_step], fun s' hs' => by
      simp only [auth_step, StepResult.next.injEq] at hs'
      rw [← hs']
      exact h1⟩

/-- The run of the loop from an invariant state never aborts on the
modelled underflow, and every state it passes through satisfies the
invariant. -/
theorem auth_run_inv (cfg : AuthConfig) (user_data : UserData ℝ)
    (challenge : List Nat) (hash : List Nat → List Nat)
    (leBytes : ℝ → List Nat) :
    ∀ (inputs : List AuthInput) (s : AuthenticationState) (attempts : Nat),
      WindowInv cfg s →
      auth_loop cfg user_data challenge hash leBytes inputs s attempts ≠ none ∧
      ∀ s' ∈ auth_trace cfg user_data challenge hash leBytes inputs s attempts,
        WindowInv cfg s' := by
  intro inputs
  induction inputs with
  | nil =>
    intro s attempts _
    constructor
    · simp [auth_loop]
    · intro s' hs'
      simp [auth_trace] at hs'
  | cons inp rest ih =>
    intro s attempts h
    by_cases htime : cfg.timeout_seconds ≤ inp.now
    · constructor
      · simp [auth_loop, htime]
      · intro s' hs'
        simp [auth_trace, htime] at hs'
    · obtain ⟨hnu, hnext⟩ := auth_step_inv cfg user_data challenge hash leBytes s
        (attempts + 1) inp h
      rcases hstep : auth_step cfg user_data challenge hash leBytes s (attempts + 1) inp
        with s' | r | -
      · obtain ⟨ih1, ih2⟩ := ih s' (attempts + 1) (hnext s' hstep)
        constructor
        · simpa [auth_loop, htime, hstep] using ih1
        · intro s'' hs''
          simp only [auth_trace] at hs''
          rw [if_neg htime, hstep] at hs''
          rcases List.mem_cons.mp hs'' with h' | h'
          · rw [h']; exact hnext s' hstep
          · exact ih2 s'' h'
      · constructor
        · simp [auth_loop, htime, hstep]
        · intro s' hs'
          simp [auth_trace, htime, hstep] at hs'
      · exact absurd hstep hnu

/-- **C1.** Window accounting: the authenticate loop, run from the initial
state on any sequence of iteration inputs, never triggers the modelled
`u32` underflow of `successful_matches` (the run is never `none`), and
after every completed iteration the observed state has
`successful_matches` equal to the number of `true` entries in the sliding
window and a window of length at most `n_total_attempts`. -/
theorem window_accounting (cfg : AuthConfig) (user_data : UserData ℝ)
    (challenge : List Nat) (hash : List Nat → List Nat)
    (leBytes : ℝ → List Nat) (inputs : List AuthInput) :
    auth_loop cfg user_data challenge hash leBytes inputs
      (AuthenticationState.fresh 0) 0 ≠ none ∧
    ∀ s ∈ auth_trace cfg user_data challenge hash leBytes inputs
        (AuthenticationState.fresh 0) 0,
      s.successful_matches = s.auth_attempts.count true ∧
      s.auth_attempts.length ≤ cfg.n_total_attempts :=
  auth_run_inv cfg user_data challenge hash leBytes inputs
    (AuthenticationState.fresh 0) 0 (windowInv_fresh cfg 0)

/-- Witness for C1: a concrete one-iteration run (no face seen) stays in
the invariant and does not abort. -/
theorem window_accounting_witness :
    (⟨⟨0, 10, 2, 3, 5, false, 1⟩, ⟨1, "alice", [[1]], none, none⟩⟩ :
        AuthConfig × UserData ℝ).1.n_total_attempts = 3 ∧
    (AuthenticationState.fresh 0).successful_matches =
      (AuthenticationState.fresh 0).auth_attempts.count true ∧
    (AuthenticationState.fresh 0).auth_attempts.length ≤ 3 := by
  refine ⟨rfl, ?_⟩
  have h := (window_accounting ⟨0, 10, 2, 3, 5, false, 1⟩
    ⟨1, "alice", [[1]], none, none⟩ [] (fun x => x) (fun _ => [])
    [⟨0, some .noFace⟩]).2 (AuthenticationState.fresh 0)
  exact h (by simp [auth_trace, auth_step, reset_check, AuthenticationState.fresh])

/-- A `face_step` that returns `.done` returns the success response whose
signature is `generate_signature` over the embedding of that very step. -/
theorem face_step_done (cfg : AuthConfig) (user_data : UserData ℝ)
    (challenge : List Nat) (hash : List Nat → List Nat) (leBytes : ℝ → List Nat)
    (s : AuthenticationState) (attempts : Nat) (embedding : List ℝ)
    (r : AuthResponse)
    (h : face_step cfg user_data challenge hash leBytes s attempts embedding =
      .done r) :
    r = ⟨true, "Authenticated", attempts,
      generate_signature hash leBytes embedding challenge⟩ := by
  unfold face_step at h
  split at h
  · simp at h
  · split at h
    · simp only [StepResult.done.injEq] at h
      exact h.symm
    · simp at h

/-- A loop iteration that returns `.done` did so in the nonempty-detection
branch: the input carries a face embedding and the response is the success
response signed over that embedding. -/
theorem auth_step_done (cfg : AuthConfig) (user_data : UserData ℝ)
    (challenge : List Nat) (hash : List Nat → List Nat) (leBytes : ℝ → List Nat)
    (s : AuthenticationState) (attempts : Nat) (inp : AuthInput)
    (r : AuthResponse)
    (h : auth_step cfg user_data challenge hash leBytes s attempts inp = .done r) :
    ∃ e, inp.capture = some (.faces e) ∧
      r = ⟨true, "Authenticated", attempts,
        generate_signature hash leBytes e challenge⟩ := by
  rcases inp with ⟨now, capture⟩
  rcases capture with - | d
  · simp [auth_step] at h
  rcases d with emb | - | - | -
  · refine ⟨emb, rfl, ?_⟩
    exact face_step_done cfg user_data challenge hash leBytes _ attempts emb r
      (by simpa [auth_step] using h)
  · simp [auth_step] at h
  · simp [auth_step] at h
  · simp [auth_step] at h

/-- Signature shape along any run of the loop: a `success = false` result
carries the empty signature, and a `success = true` result was produced at
a unique position in the input list — the loop continued (`auth_steps`)
through exactly the prefix before it, passed that iteration's deadline
guard, and returned `.done r` at that very iteration, whose captured face
embedding is the one the signature hashes. -/
theorem auth_loop_signature (cfg : AuthConfig) (user_data : UserData ℝ)
    (challenge : List Nat) (hash : List Nat → List Nat) (leBytes : ℝ → List Nat) :
    ∀ (inputs : List AuthInput) (s : AuthenticationState) (attempts : Nat)
      (r : AuthResponse),
      auth_loop cfg user_data challenge hash leBytes inputs s attempts = some r →
      (r.success = false → r.signature = []) ∧
      (r.success = true → ∃ pre inp rest e s' att',
        inputs = pre ++ inp :: rest ∧
        auth_steps cfg user_data challenge hash leBytes pre s attempts =
          some (s', att') ∧
        ¬ cfg.timeout_seconds ≤ inp.now ∧
        auth_step cfg user_data challenge hash leBytes s' (att' + 1) inp =
          .done r ∧
        inp.capture = some (.faces e) ∧
        r.signature = generate_signature hash leBytes e challenge) := by
  intro inputs
  induction inputs with
  | nil =>
    intro s attempts r hr
    simp only [auth_loop, Option.some.injEq] at hr
    constructor
    · intro _
      rw [← hr]
      rfl
    · intro htrue
      rw [← hr] at htrue
      simp [timeout_response] at htrue
  | cons inp rest ih =>
    intro s attempts r hr
    simp only [auth_loop] at hr
    by_cases htime : cfg.timeout_seconds ≤ inp.now
    · rw [if_pos htime] at hr
      simp only [Option.some.injEq] at hr
      constructor
      · intro _
        rw [← hr]
        rfl
      · intro htrue
        rw [← hr] at htrue
        simp [timeout_response] at htrue
    · rw [if_neg htime] at hr
      rcases hstep : auth_step cfg user_data challenge hash leBytes s (attempts + 1) inp
        with s'' | r0 | -
      · rw [hstep] at hr
        simp only at hr
        obtain ⟨h1, h2⟩ := ih s'' (attempts + 1) r hr
        refine ⟨h1, fun htrue => ?_⟩
        obtain ⟨pre, inp', rest', e, s', att', hsplit, hsteps, htime', hdone, hcap, hsig⟩ :=
          h2 htrue
        refine ⟨inp :: pre, inp', rest', e, s', att',
          by rw [hsplit, List.cons_append], ?_, htime', hdone, hcap, hsig⟩
        simp only [auth_steps]
        rw [if_neg htime, hstep]
        exact hsteps
      · rw [hstep] at hr
        simp only [Option.some.injEq] at hr
        obtain ⟨e, hcap, hre⟩ := auth_step_done cfg user_data challenge hash leBytes s
          (attempts + 1) inp r0 hstep
        subst hr
        constructor
        · intro hfalse
          rw [hre] at hfalse
          simp at hfalse
        · intro _
          refine ⟨[], inp, rest, e, s, attempts, rfl, ?_, htime, hstep, hcap, by rw [hre]⟩
          simp [auth_steps]
      · rw [hstep] at hr
        simp at hr

/-- **C2.** Signature binding for `perform_authentication`: every
`success = false` response (user not enrolled, or timeout) carries the
empty signature; every `success = true` response was produced at a
specific input position — the loop ran from the initial state through
exactly the prefix `pre` without terminating (`auth_steps`), and at the
next input `inp` the iteration itself returned `.done r` — and the
signature is `hash(le_bytes(e) ++ challenge)` for `e` the face embedding
captured by that succeeding iteration.  Since the call returns within that
iteration, `e` is the current (last captured) embedding of the call. -/
theorem signature_binding (cfg : AuthConfig) (user_lookup : Option (UserData ℝ))
    (username : String) (challenge : List Nat) (hash : List Nat → List Nat)
    (leBytes : ℝ → List Nat) (inputs : List AuthInput) (r : AuthResponse)
    (h : perform_authentication cfg user_lookup username challenge hash leBytes
      inputs = some r) :
    (r.success = false → r.signature = []) ∧
    (r.success = true → ∃ user_data, user_lookup = some user_data ∧
      ∃ pre inp rest e s' att',
        inputs = pre ++ inp :: rest ∧
        auth_steps cfg user_data challenge hash leBytes pre
          (AuthenticationState.fresh 0) 0 = some (s', att') ∧
        ¬ cfg.timeout_seconds ≤ inp.now ∧
        auth_step cfg user_data challenge hash leBytes s' (att' + 1) inp =
          .done r ∧
        inp.capture = some (.faces e) ∧
        r.signature = generate_signature hash leBytes e challenge) := by
  rcases user_lookup with - | ud
  · simp only [perform_authentication, Option.some.injEq] at h
    constructor
    · intro _
      rw [← h]
    · intro htrue
      rw [← h] at htrue
      simp at htrue
  · have h' := auth_loop_signature cfg ud challenge hash leBytes inputs
      (AuthenticationState.fresh 0) 0 r
      (by simpa [perform_authentication] using h)
    exact ⟨h'.1, fun htrue => ⟨ud, rfl, h'.2 htrue⟩⟩

/-- Witness for C2: a request for a user that is not enrolled returns
`success = false` with the empty signature. -/
theorem signature_binding_witness :
    ∃ r, perform_authentication ⟨0, 10, 2, 3, 5, false, 1⟩ none "bob" []
      (fun x => x) (fun _ => []) [] = some r ∧ r.signature = [] := by
  refine ⟨⟨false, "User " ++ "bob" ++ " not enrolled", 0, []⟩, rfl, ?_⟩
  exact (signature_binding ⟨0, 10, 2, 3, 5, false, 1⟩ none "bob" []
    (fun x => x) (fun _ => []) [] _ rfl).1 rfl

/-- **C3.** Lost-face reset: when a face has been seen
(`face_detected_once`) and the elapsed time since the last sighting
exceeds `lost_face_timeout`, the iteration replaces the whole
`AuthenticationState` with the fresh state — empty sliding window,
`successful_matches = 0`, empty fusion buffer, cleared face-seen flag —
before processing the frame: the step behaves exactly as from the fresh
state, and when that frame has no usable face the iteration ends in that
fresh state. -/
theorem lost_face_reset (cfg : AuthConfig) (user_data : UserData ℝ)
    (challenge : List Nat) (hash : List Nat → List Nat) (leBytes : ℝ → List Nat)
    (s : AuthenticationState) (attempts : Nat) (inp : AuthInput)
    (hface : s.face_detected_once = true)
    (hlost : cfg.lost_face_timeout < inp.now - s.last_face_time) :
    reset_check cfg inp.now s = AuthenticationState.fresh inp.now ∧
    (AuthenticationState.fresh inp.now).auth_attempts = [] ∧
    (AuthenticationState.fresh inp.now).successful_matches = 0 ∧
    (AuthenticationState.fresh inp.now).embedding_buffer = [] ∧
    (AuthenticationState.fresh inp.now).face_detected_once = false ∧
    auth_step cfg user_data challenge hash leBytes s attempts inp =
      auth_step cfg user_data challenge hash leBytes
        (AuthenticationState.fresh inp.now) attempts inp ∧
    ((inp.capture = none ∨ inp.capture = some .noFace ∨
        inp.capture = some .detectError) →
      auth_step cfg user_data challenge hash leBytes s attempts inp =
        .next (AuthenticationState.fresh inp.now)) := by
  have h1 : reset_check cfg inp.now s = AuthenticationState.fresh inp.now := by
    unfold reset_check
    rw [if_pos ⟨hface, hlost⟩]
  have h2 : reset_check cfg inp.now (AuthenticationState.fresh inp.now) =
      AuthenticationState.fresh inp.now := by
    unfold reset_check
    rw [if_neg (by simp [AuthenticationState.fresh])]
  refine ⟨h1, rfl, rfl, rfl, rfl, ?_, ?_⟩
  · unfold auth_step
    rw [h1, h2]
  · intro hcap
    rcases hcap with hc | hc | hc <;>
      · unfold auth_step
        rw [h1, hc]

/-- Witness for C3: a concrete state with a stale face sighting and a
no-face frame steps to the fresh state. -/
theorem lost_face_reset_witness :
    auth_step ⟨0, 10, 2, 3, 5, false, 1⟩ ⟨1, "alice", [[1]], none, none⟩ []
      (fun x => x) (fun _ => []) ⟨[true], 1, [[1]], 0, true⟩ 3
      ⟨5, some .noFace⟩ = .next (AuthenticationState.fresh 5) := by
  exact (lost_face_reset ⟨0, 10, 2, 3, 5, false, 1⟩ ⟨1, "alice", [[1]], none, none⟩
    [] (fun x => x) (fun _ => []) ⟨[true], 1, [[1]], 0, true⟩ 3 ⟨5, some .noFace⟩
    rfl (by norm_num)).2.2.2.2.2.2 (Or.inr (Or.inl rfl))

end SupLinux
